import Mathlib

/-!
Verification development for the dev-service orchestrator
(`scripts/dev-all.mjs` of the shophub-shell repository).

The script is embedded shallowly:
* the HTTP readiness probe loop `waitForHttpOk` becomes a recursive
  function over a list of probe outcomes (each with the wall-clock
  duration the probe consumed), threading the elapsed time explicitly;
* the mutable orchestrator state (the `children` array of kill counts
  and the `isShuttingDown` flag) becomes an explicit `OrchState`;
* the top-level script (preflight port check, start loop, readiness
  loop, shell start) becomes a function producing the list of observable
  events of one orchestration run.
-/

set_option autoImplicit false

namespace DevAll

/-! ### Readiness probing (`waitForHttpOk`, dev-all.mjs lines 92–137) -/

/-- Outcome of a single HTTP GET probe issued by `waitForHttpOk`:
either a response arrived with some status code, or the connection
errored, or the per-request 5s timer fired. -/
inductive ProbeOutcome where
  | response (status : Nat)
  | connError
  | timeout
deriving DecidableEq

/-- The readiness test applied to one probe outcome.  Mirrors
`res.statusCode && res.statusCode >= 200 && res.statusCode < 400`
(JS truthiness of the status code, then the range check); the
`timeout` and `error` callbacks both resolve `false`. -/
def probeOk : ProbeOutcome → Bool
  | .response s => decide (s ≠ 0) && decide (200 ≤ s) && decide (s < 400)
  | .connError => false
  | .timeout => false

/-- The message of the error thrown on readiness timeout:
`Timed out waiting for ` followed by the URL (line 131). -/
def timeoutMessage (url : String) : String :=
  "Timed out waiting for " ++ url

/-- The `while (true)` loop body of `waitForHttpOk`.  `elapsed` is
`Date.now() - start`; each world entry is the next probe's outcome
together with the milliseconds that probe took.  Per iteration: the
probe runs (advancing time by its duration), a ready outcome returns
success at once, otherwise the loop throws the timeout error when the
elapsed time exceeds `timeoutMs`, and otherwise sleeps `intervalMs`
and retries.  The pair's second component is the elapsed time at the
point of return.  An exhausted world yields `.ok false`, a value the
real loop never produces (it only ever returns `true` or throws). -/
def waitLoop (url : String) (timeoutMs intervalMs : Nat) :
    Nat → List (ProbeOutcome × Nat) → Except String Bool × Nat
  | elapsed, [] => (.ok false, elapsed)
  | elapsed, (o, d) :: rest =>
    if probeOk o then (.ok true, elapsed + d)
    else if timeoutMs < elapsed + d then (.error (timeoutMessage url), elapsed + d)
    else waitLoop url timeoutMs intervalMs (elapsed + d + intervalMs) rest

/-- `waitForHttpOk(url)` as called by the orchestrator: the loop with
its default options `timeoutMs = 60000`, `intervalMs = 250`, starting
at elapsed time 0. -/
def waitForHttpOk (url : String) (world : List (ProbeOutcome × Nat)) :
    Except String Bool × Nat :=
  waitLoop url 60000 250 0 world

/-- Whether a loop result is a thrown error (a rejected promise). -/
def exceptIsError (r : Except String Bool) : Bool :=
  match r with
  | .error _ => true
  | .ok _ => false

/-! ### Orchestrator mutable state (`children`, `isShuttingDown`) -/

/-- The orchestrator's shared mutable state: one kill counter per
tracked child process (how many termination signals it has received)
and the `isShuttingDown` flag. -/
structure OrchState where
  killCounts : List Nat
  isShuttingDown : Bool
deriving DecidableEq

/-- `shutdown(reason)` (lines 139–150): sets `isShuttingDown := true`
and sends one `SIGINT` to every tracked child.  Note the function body
contains no guard on the flag. -/
def shutdown (st : OrchState) : OrchState :=
  { killCounts := st.killCounts.map (· + 1), isShuttingDown := true }

/-- `children.push(child)` inside `startService` (line 62): appends
exactly one handle to the tracked list. -/
def childrenPush (children : List Nat) (pid : Nat) : List Nat :=
  children ++ [pid]

/-- The `child.on('exit', (code, signal) => …)` handler installed by
`startService` (lines 67–76).  `code` is `null` when the child died
from a signal.  The guard is `!isShuttingDown && code && code !== 0`;
when it fires the handler calls `shutdown` and then `process.exit(code)`.
Returns the new state and the orchestrator exit code, if any. -/
def onChildExit (st : OrchState) (code : Option Int) : OrchState × Option Int :=
  match code with
  | some c => if !st.isShuttingDown && c != 0 then (shutdown st, some c) else (st, none)
  | none => (st, none)

/-! ### Output prefixing (`prefixLines`, dev-all.mjs lines 45–52)

Chunks are modelled as lists of characters.  `splitLines` is
`text.split(/\r?\n/)`: a break is a lone `\n` or a `\r\n` pair; a `\r`
not followed by `\n` is an ordinary character. -/

/-- `chunk.split(/\r?\n/)` on a character list. -/
def splitLines : List Char → List (List Char)
  | [] => [[]]
  | '\n' :: rest => [] :: splitLines rest
  | '\r' :: '\n' :: rest => [] :: splitLines rest
  | c :: rest => (c :: (splitLines rest).headI) :: (splitLines rest).tail

/-- `lines.join('\n')` on character lists. -/
def joinLines : List (List Char) → List Char
  | [] => []
  | [l] => l
  | l :: l2 :: ls => l ++ '\n' :: joinLines (l2 :: ls)

/-- `line.length ? `[name] ` + line : line` — the per-line map of
`prefixLines`: non-empty lines get the bracketed name and a space,
empty lines pass through unchanged. -/
def prefixLine (name line : List Char) : List Char :=
  if line = [] then line else '[' :: name ++ ']' :: ' ' :: line

/-- `prefixLines(name, chunk)`: split on `\r?\n`, prefix each
non-empty line, join with `\n`. -/
def prefixLines (name chunk : List Char) : List Char :=
  joinLines ((splitLines chunk).map (prefixLine name))

/-- The output the claim describes: the original text with *every*
line prefixed and the original line-break characters left unchanged.
`splitKeepBreaks` splits like `splitLines` but remembers each line's
terminating break characters, so they can be re-emitted verbatim. -/
def splitKeepBreaks : List Char → List (List Char × List Char)
  | [] => [([], [])]
  | '\n' :: rest => ([], ['\n']) :: splitKeepBreaks rest
  | '\r' :: '\n' :: rest => ([], ['\r', '\n']) :: splitKeepBreaks rest
  | c :: rest =>
    ((c :: (splitKeepBreaks rest).headI.1, (splitKeepBreaks rest).headI.2)
      :: (splitKeepBreaks rest).tail)

/-- The claimed behaviour of `prefixLines`, read literally: every line
(empty or not) prefixed with `[name] `, original break characters
preserved. -/
def claimedPrefixLines (name chunk : List Char) : List Char :=
  ((splitKeepBreaks chunk).map
    (fun p => '[' :: name ++ ']' :: ' ' :: p.1 ++ p.2)).foldr (· ++ ·) []

/-! ### The orchestration run (dev-all.mjs lines 162–201)

The run is embedded as the list of observable events it produces.
Configured services are identified by their position in the list. -/

/-- One configured service as the orchestrator sees it: a name, an
optional declared port and an optional readiness URL. -/
structure Svc where
  name : String
  port : Option Nat
  readyUrl : Option String
deriving DecidableEq

/-- The environment of one run: which ports accept a TCP connection
during preflight, and the probe outcomes each readiness URL produces. -/
structure World where
  portBusy : Nat → Bool
  probes : String → List (ProbeOutcome × Nat)

/-- Observable events of a run. -/
inductive Event where
  | portsReport (ports : List Nat)
  | startSvc (i : Nat)
  | waitOk (i : Nat)
  | reportWaitFailure (name msg : String)
  | shutdownEv
  | startShell
  | exitEv (code : Nat)
deriving DecidableEq

/-- The ports the configuration declares: the shell's (when declared)
and each service's (when declared). -/
def declaredPorts (shellPort : Option Nat) (svcs : List Svc) : List Nat :=
  shellPort.toList ++ svcs.filterMap Svc.port

/-- `requiredPorts` (lines 163–166): the shell's port and every
service port, with `undefined` entries and falsy `0` removed by the
final `.filter(Boolean)`. -/
def requiredPorts (shellPort : Option Nat) (svcs : List Svc) : List Nat :=
  (declaredPorts shellPort svcs).filter (fun p => p != 0)

/-- The readiness loop (lines 184–193) followed by the shell start
(lines 195–201).  A service with no `readyUrl` is skipped.  A failed
`waitForHttpOk` reports the failure with the service name, calls
`shutdown` and exits 1, ending the run. -/
def waitPhase (w : World) : Nat → List Svc → List Event
  | _, [] => [.startShell]
  | i, s :: rest =>
    match s.readyUrl with
    | none => waitPhase w (i + 1) rest
    | some url =>
      match (waitForHttpOk url (w.probes url)).1 with
      | .ok _ => .waitOk i :: waitPhase w (i + 1) rest
      | .error msg => [.reportWaitFailure s.name msg, .shutdownEv, .exitEv 1]

/-- One orchestration run (lines 162–201): preflight over the required
ports — a non-empty occupied set is reported and the run exits 1 before
anything starts — then `startService` for every configured service in
order, then the readiness loop and the shell start. -/
def run (w : World) (shellPort : Option Nat) (svcs : List Svc) : List Event :=
  let inUse := (requiredPorts shellPort svcs).filter w.portBusy
  if inUse.isEmpty then
    ((List.range svcs.length).map Event.startSvc) ++ waitPhase w 0 svcs
  else
    [.portsReport inUse, .exitEv 1]

/-! ## Lemmas about the readiness loop -/

/-- Unfolding equation of `waitLoop` on an empty world. -/
theorem waitLoop_nil (url : String) (t iv e : Nat) :
    waitLoop url t iv e [] = (.ok false, e) := rfl

/-- Unfolding equation of `waitLoop` on one more probe. -/
theorem waitLoop_cons (url : String) (t iv e : Nat) (o : ProbeOutcome) (d : Nat)
    (rest : List (ProbeOutcome × Nat)) :
    waitLoop url t iv e ((o, d) :: rest) =
      if probeOk o then (.ok true, e + d)
      else if t < e + d then (.error (timeoutMessage url), e + d)
      else waitLoop url t iv (e + d + iv) rest := rfl

/-- Whenever `waitLoop` produces an error, the message is the timeout
message for the probed URL, and the elapsed time at the throw strictly
exceeds the timeout budget. -/
theorem waitLoop_error (url : String) (t iv : Nat) :
    ∀ (w : List (ProbeOutcome × Nat)) (e0 e1 : Nat) (msg : String),
      waitLoop url t iv e0 w = (.error msg, e1) →
      msg = timeoutMessage url ∧ t < e1 := by
  intro w
  induction w with
  | nil =>
    intro e0 e1 msg h
    simp [waitLoop_nil] at h
  | cons p rest ih =>
    obtain ⟨o, d⟩ := p
    intro e0 e1 msg h
    by_cases hok : probeOk o = true
    · simp [waitLoop_cons, hok] at h
    · by_cases ht : t < e0 + d
      · simp [waitLoop_cons, hok, ht] at h
        exact ⟨h.1.symm, by omega⟩
      · rw [waitLoop_cons, if_neg (by simp [hok]), if_neg ht] at h
        exact ih _ _ _ h

/-- With the default interval of 250 ms, a world of probes that all
fail drives the loop into the timeout throw, provided it holds enough
probes to cover the 60 s budget. -/
theorem waitLoop_times_out (url : String) :
    ∀ (w : List (ProbeOutcome × Nat)) (e0 : Nat),
      (∀ p ∈ w, probeOk p.1 = false) →
      e0 ≤ 60250 → 60250 < e0 + w.length * 250 →
      exceptIsError (waitLoop url 60000 250 e0 w).1 = true := by
  intro w
  induction w with
  | nil =>
    intro e0 _ hle hlt
    simp at hlt
    omega
  | cons p rest ih =>
    obtain ⟨o, d⟩ := p
    intro e0 hall hle hlt
    have ho : probeOk o = false := hall (o, d) (by simp)
    by_cases ht : 60000 < e0 + d
    · simp [waitLoop_cons, ho, ht, exceptIsError]
    · rw [waitLoop_cons, if_neg (by simp [ho]), if_neg ht]
      refine ih (e0 + d + 250) (fun q hq => hall q (List.mem_cons_of_mem _ hq)) ?_ ?_
      · omega
      · simp [List.length_cons] at hlt
        omega

/-! ## Claims about the readiness probe -/

/-- C5: a single probe resolves ready exactly when the response status
lies in [200, 400); every other outcome (other statuses, connection
errors, per-request timeouts) resolves not-ready, a not-ready outcome
within the time budget makes the loop retry on the remaining probes,
and a ready outcome returns success at once — in particular on the
first ready response. -/
theorem probe_ready_iff_2xx_3xx :
    (∀ o : ProbeOutcome, probeOk o = true ↔
        ∃ s, o = ProbeOutcome.response s ∧ 200 ≤ s ∧ s < 400) ∧
    (∀ (url : String) (t iv e d : Nat) (o : ProbeOutcome)
        (w : List (ProbeOutcome × Nat)), probeOk o = true →
        waitLoop url t iv e ((o, d) :: w) = (.ok true, e + d)) ∧
    (∀ (url : String) (t iv e d : Nat) (o : ProbeOutcome)
        (w : List (ProbeOutcome × Nat)), probeOk o = false → e + d ≤ t →
        waitLoop url t iv e ((o, d) :: w) = waitLoop url t iv (e + d + iv) w) := by
  refine ⟨?_, ?_, ?_⟩
  · intro o
    cases o with
    | response s =>
      simp only [probeOk, Bool.and_eq_true, decide_eq_true_eq]
      constructor
      · rintro ⟨⟨-, h2⟩, h4⟩
        exact ⟨s, rfl, h2, h4⟩
      · rintro ⟨s', hs, h2, h4⟩
        cases hs
        exact ⟨⟨by omega, h2⟩, h4⟩
    | connError => simp [probeOk]
    | timeout => simp [probeOk]
  · intro url t iv e d o w h
    simp [waitLoop_cons, h]
  · intro url t iv e d o w h hle
    rw [waitLoop_cons, if_neg (by simp [h]), if_neg (by omega)]

/-- Witness for C5 at concrete inputs: a 301 response is ready at
once; a connection error within budget retries after the interval. -/
theorem probe_ready_iff_2xx_3xx_witness :
    waitLoop "u" 60000 250 0 [(ProbeOutcome.response 301, 7)] = (.ok true, 0 + 7) ∧
    waitLoop "u" 60000 250 0 [(ProbeOutcome.connError, 3), (ProbeOutcome.response 200, 7)] =
      waitLoop "u" 60000 250 (0 + 3 + 250) [(ProbeOutcome.response 200, 7)] :=
  ⟨probe_ready_iff_2xx_3xx.2.1 "u" 60000 250 0 7 (ProbeOutcome.response 301) [] (by decide),
   probe_ready_iff_2xx_3xx.2.2 "u" 60000 250 0 3 ProbeOutcome.connError
     [(ProbeOutcome.response 200, 7)] (by decide) (by omega)⟩

/-- C6: with the defaults (timeoutMs = 60000, intervalMs = 250), a
`waitForHttpOk` call that errors does so with a message naming the
URL and only once the elapsed time strictly exceeds the 60 s budget —
never before; a world of probes that never turn ready (242 of them
suffice to cover the budget) does produce that error; and a service
with no declared readiness URL is skipped by the readiness loop as an
immediate no-op. -/
theorem readiness_timeout_names_url :
    (∀ (url : String) (w : List (ProbeOutcome × Nat)) (msg : String) (e : Nat),
        waitForHttpOk url w = (.error msg, e) →
        msg = "Timed out waiting for " ++ url ∧ 60000 < e) ∧
    (∀ (url : String) (w : List (ProbeOutcome × Nat)),
        (∀ p ∈ w, probeOk p.1 = false) → 242 ≤ w.length →
        exceptIsError (waitForHttpOk url w).1 = true) ∧
    (∀ (w : World) (i : Nat) (s : Svc) (rest : List Svc), s.readyUrl = none →
        waitPhase w i (s :: rest) = waitPhase w (i + 1) rest) := by
  refine ⟨?_, ?_, ?_⟩
  · intro url w msg e h
    exact waitLoop_error url 60000 250 w 0 e msg h
  · intro url w hall hlen
    exact waitLoop_times_out url w 0 hall (by omega) (by omega)
  · intro w i s rest h
    simp [waitPhase, h]

/-- Witness for C6: a probe that takes 60001 ms and fails produces the
timeout error naming the URL after the budget; 242 failing probes of
duration 0 also exhaust the budget; a service without a readiness URL
is skipped. -/
theorem readiness_timeout_names_url_witness :
    (("Timed out waiting for u" : String) = "Timed out waiting for " ++ "u" ∧
      60000 < 60001) ∧
    exceptIsError (waitForHttpOk "u" (List.replicate 242 (ProbeOutcome.connError, 0))).1 =
      true ∧
    waitPhase { portBusy := fun _ => false, probes := fun _ => [] } 0
        [{ name := "mock", port := none, readyUrl := none }] =
      waitPhase { portBusy := fun _ => false, probes := fun _ => [] } 1 [] :=
  ⟨readiness_timeout_names_url.1 "u" [(ProbeOutcome.connError, 60001)]
      "Timed out waiting for u" 60001 rfl,
   readiness_timeout_names_url.2.1 "u" (List.replicate 242 (ProbeOutcome.connError, 0))
      (fun p hp => by rw [List.eq_of_mem_replicate hp]; rfl)
      (by rw [List.length_replicate]),
   readiness_timeout_names_url.2.2 { portBusy := fun _ => false, probes := fun _ => [] }
      0 { name := "mock", port := none, readyUrl := none } [] rfl⟩

/-! ## Claims about the exit handler and shutdown -/

/-- C2: while the shutting-down flag is not set, a tracked child
exiting with a non-zero code makes the exit handler call `shutdown`
(which signals every tracked process once) and exit the orchestrator
with that same code. -/
theorem child_failure_propagates_code (st : OrchState) (c : Int)
    (hsd : st.isShuttingDown = false) (hc : c ≠ 0) :
    onChildExit st (some c) = (shutdown st, some c) ∧
    (shutdown st).killCounts = st.killCounts.map (· + 1) := by
  refine ⟨?_, rfl⟩
  simp [onChildExit, hsd, hc]

/-- Witness for C2: a child exiting with code 3 while two processes
are tracked and the flag is clear: the handler shuts the fleet down
and the orchestrator exit code is 3. -/
theorem child_failure_propagates_code_witness :
    onChildExit { killCounts := [0, 0], isShuttingDown := false } (some 3) =
      (shutdown { killCounts := [0, 0], isShuttingDown := false }, some 3) ∧
    (shutdown { killCounts := [0, 0], isShuttingDown := false }).killCounts =
      [0, 0].map (· + 1) :=
  child_failure_propagates_code { killCounts := [0, 0], isShuttingDown := false } 3
    rfl (by decide)

/-- C3 counterexample: `shutdown` is not guarded by the
already-shutting-down flag.  Starting from one tracked process with no
signals received, two successive `shutdown` calls leave the process
with two received termination signals, not one as the claim states. -/
theorem shutdown_twice_signals_twice_counterexample :
    (shutdown (shutdown { killCounts := [0], isShuttingDown := false })).killCounts = [2] ∧
    ([2] : List Nat) ≠ [1] := by
  decide

/-- C3 (amended): `shutdown` sets the shutting-down flag (which only
the child-exit handler consults) but its own body is unguarded: every
call signals every tracked process once, so two successive calls
signal each tracked process twice. -/
theorem shutdown_signals_on_every_call (st : OrchState) :
    (shutdown st).isShuttingDown = true ∧
    (shutdown st).killCounts = st.killCounts.map (· + 1) ∧
    (shutdown (shutdown st)).killCounts = st.killCounts.map (· + 2) := by
  refine ⟨rfl, rfl, ?_⟩
  have hcomp : ((fun n => n + 1) ∘ fun n : Nat => n + 1) = fun n : Nat => n + 2 := by
    funext n
    simp [Function.comp]
  simp only [shutdown, List.map_map, hcomp]

/-- C10: a tracked child that dies from a signal reports a `null` exit
code, the guard `code && code !== 0` is then falsy, and the exit
handler neither shuts the fleet down nor exits the orchestrator: the
state is untouched and no exit code is produced. -/
theorem signal_exit_keeps_fleet_running (st : OrchState) :
    onChildExit st none = (st, none) := rfl

/-! ## Lemmas about line splitting -/

/-- A lone line feed opens a new line. -/
theorem splitLines_lf (cs : List Char) :
    splitLines ('\n' :: cs) = [] :: splitLines cs := rfl

/-- A carriage-return/line-feed pair opens a new line, consuming both
characters: CRLF splits exactly like a lone LF. -/
theorem splitLines_crlf (cs : List Char) :
    splitLines ('\r' :: '\n' :: cs) = [] :: splitLines cs := rfl

/-- An ordinary character is prepended to the current line. -/
theorem splitLines_cons_other (c : Char) (rest : List Char)
    (h1 : c ≠ '\n') (h2 : c ≠ '\r') :
    splitLines (c :: rest) =
      (c :: (splitLines rest).headI) :: (splitLines rest).tail := by
  rw [splitLines.eq_def]
  split
  · simp_all
  · simp_all
  · simp_all
  · simp_all

/-- A chunk without break characters is a single line. -/
theorem splitLines_noBreak (l : List Char)
    (h : ∀ c ∈ l, c ≠ '\n' ∧ c ≠ '\r') : splitLines l = [l] := by
  induction l with
  | nil => rfl
  | cons c rest ih =>
    have hc := h c (by simp)
    rw [splitLines_cons_other c rest hc.1 hc.2,
      ih (fun x hx => h x (List.mem_cons_of_mem _ hx))]
    rfl

/-- Splitting a break-free line followed by an LF and a remainder
yields that line and then the split of the remainder. -/
theorem splitLines_append_lf (l cs : List Char)
    (h : ∀ c ∈ l, c ≠ '\n' ∧ c ≠ '\r') :
    splitLines (l ++ '\n' :: cs) = l :: splitLines cs := by
  induction l with
  | nil => simpa using splitLines_lf cs
  | cons c rest ih =>
    have hc := h c (by simp)
    rw [List.cons_append, splitLines_cons_other c _ hc.1 hc.2,
      ih (fun x hx => h x (List.mem_cons_of_mem _ hx))]
    rfl

/-- Unfolding equation of `joinLines` on two or more lines. -/
theorem joinLines_cons₂ (l l2 : List Char) (ls : List (List Char)) :
    joinLines (l :: l2 :: ls) = l ++ '\n' :: joinLines (l2 :: ls) := rfl

/-- Splitting is a retraction of joining on non-empty lists of
break-free lines. -/
theorem splitLines_joinLines (lines : List (List Char)) (hne : lines ≠ [])
    (h : ∀ l ∈ lines, ∀ c ∈ l, c ≠ '\n' ∧ c ≠ '\r') :
    splitLines (joinLines lines) = lines := by
  induction lines with
  | nil => cases hne rfl
  | cons l ls ih =>
    cases ls with
    | nil => exact splitLines_noBreak l (h l (by simp))
    | cons l2 ls2 =>
      rw [joinLines_cons₂, splitLines_append_lf l _ (h l (by simp)),
        ih (by simp) (fun x hx => h x (List.mem_cons_of_mem _ hx))]

/-! ## Claims about output prefixing -/

/-- C8 counterexample: on the chunk `a\r\n\nb` with name `x`, the code
produces `[x] a\n\n[x] b` — the CRLF break is rewritten to a bare LF
and the empty middle line is left unprefixed — which differs from the
claimed output (every line prefixed, break characters unchanged),
namely `[x] a\r\n[x] \n[x] b`. -/
theorem prefixLines_counterexample :
    prefixLines ['x'] ['a', '\r', '\n', '\n', 'b'] =
      ['[', 'x', ']', ' ', 'a', '\n', '\n', '[', 'x', ']', ' ', 'b'] ∧
    claimedPrefixLines ['x'] ['a', '\r', '\n', '\n', 'b'] =
      ['[', 'x', ']', ' ', 'a', '\r', '\n',
        '[', 'x', ']', ' ', '\n', '[', 'x', ']', ' ', 'b'] ∧
    prefixLines ['x'] ['a', '\r', '\n', '\n', 'b'] ≠
      claimedPrefixLines ['x'] ['a', '\r', '\n', '\n', 'b'] := by
  refine ⟨by decide, by decide, by decide⟩

/-- C8 (amended): `prefixLines` prefixes every *non-empty* line of the
chunk with `[name] ` and preserves the line boundaries, but empty
lines are left unprefixed and CRLF breaks are normalized to LF.  For a
chunk assembled from break-free lines joined by LF the result is
exactly the lines mapped through the per-line prefixer and re-joined
by LF; a CRLF pair splits exactly like a lone LF; the empty line is
left unchanged by the prefixer. -/
theorem prefixLines_boundaries (name : List Char) :
    (∀ lines : List (List Char), lines ≠ [] →
      (∀ l ∈ lines, ∀ c ∈ l, c ≠ '\n' ∧ c ≠ '\r') →
      prefixLines name (joinLines lines) =
        joinLines (lines.map (prefixLine name))) ∧
    (∀ cs : List Char,
      prefixLines name ('\r' :: '\n' :: cs) = prefixLines name ('\n' :: cs)) ∧
    prefixLine name [] = [] := by
  refine ⟨?_, ?_, rfl⟩
  · intro lines hne h
    rw [prefixLines, splitLines_joinLines lines hne h]
  · intro cs
    rw [prefixLines, prefixLines, splitLines_crlf, splitLines_lf]

/-- Witness for C8 (amended) at the lines `a`, (empty), `b` with name
`x`. -/
theorem prefixLines_boundaries_witness :
    prefixLines ['x'] (joinLines [['a'], [], ['b']]) =
      joinLines ([['a'], [], ['b']].map (prefixLine ['x'])) :=
  (prefixLines_boundaries ['x']).1 [['a'], [], ['b']] (by decide) (by decide)

/-! ## Lemmas about the orchestration run -/

/-- The readiness loop over an exhausted service list starts the shell. -/
theorem waitPhase_nil (w : World) (i : Nat) :
    waitPhase w i [] = [Event.startShell] := rfl

/-- A service without a readiness URL is skipped. -/
theorem waitPhase_cons_none (w : World) (i : Nat) (s : Svc) (rest : List Svc)
    (h : s.readyUrl = none) :
    waitPhase w i (s :: rest) = waitPhase w (i + 1) rest := by
  simp [waitPhase, h]

/-- A service whose wait succeeds records the success and continues. -/
theorem waitPhase_cons_ok (w : World) (i : Nat) (s : Svc) (rest : List Svc)
    (url : String) (b : Bool) (h : s.readyUrl = some url)
    (hr : (waitForHttpOk url (w.probes url)).1 = .ok b) :
    waitPhase w i (s :: rest) = Event.waitOk i :: waitPhase w (i + 1) rest := by
  simp [waitPhase, h, hr]

/-- A service whose wait throws reports the failure with the service
name, shuts the fleet down and exits 1, ending the run. -/
theorem waitPhase_cons_error (w : World) (i : Nat) (s : Svc) (rest : List Svc)
    (url msg : String) (h : s.readyUrl = some url)
    (hr : (waitForHttpOk url (w.probes url)).1 = .error msg) :
    waitPhase w i (s :: rest) =
      [Event.reportWaitFailure s.name msg, Event.shutdownEv, Event.exitEv 1] := by
  simp [waitPhase, h, hr]

/-- A run whose preflight finds occupied ports reports them and exits. -/
theorem run_preflight_fail (w : World) (shellPort : Option Nat) (svcs : List Svc)
    (h : (requiredPorts shellPort svcs).filter w.portBusy ≠ []) :
    run w shellPort svcs =
      [Event.portsReport ((requiredPorts shellPort svcs).filter w.portBusy),
        Event.exitEv 1] := by
  rw [run, if_neg]
  simpa [List.isEmpty_iff] using h

/-- A run whose preflight finds every required port free starts all
services and proceeds to the readiness loop. -/
theorem run_preflight_pass (w : World) (shellPort : Option Nat) (svcs : List Svc)
    (h : (requiredPorts shellPort svcs).filter w.portBusy = []) :
    run w shellPort svcs =
      ((List.range svcs.length).map Event.startSvc) ++ waitPhase w 0 svcs := by
  rw [run, if_pos]
  simpa [List.isEmpty_iff] using h

/-- The readiness loop never emits a service-start event. -/
theorem waitPhase_no_startSvc (w : World) :
    ∀ (svcs : List Svc) (i j : Nat), Event.startSvc j ∉ waitPhase w i svcs := by
  intro svcs
  induction svcs with
  | nil =>
    intro i j
    simp [waitPhase_nil]
  | cons s rest ih =>
    intro i j
    cases hs : s.readyUrl with
    | none =>
      rw [waitPhase_cons_none w i s rest hs]
      exact ih (i + 1) j
    | some url =>
      cases hr : (waitForHttpOk url (w.probes url)).1 with
      | ok b =>
        rw [waitPhase_cons_ok w i s rest url b hs hr]
        intro hmem
        rcases List.mem_cons.mp hmem with h1 | h1
        · exact Event.noConfusion h1
        · exact ih (i + 1) j h1
      | error msg =>
        rw [waitPhase_cons_error w i s rest url msg hs hr]
        simp

/-- The readiness loop emits the shell-start event at most once. -/
theorem waitPhase_startShell_once (w : World) :
    ∀ (svcs : List Svc) (i : Nat),
      (waitPhase w i svcs).count Event.startShell ≤ 1 := by
  intro svcs
  induction svcs with
  | nil =>
    intro i
    rw [waitPhase_nil]
    decide
  | cons s rest ih =>
    intro i
    cases hs : s.readyUrl with
    | none =>
      rw [waitPhase_cons_none w i s rest hs]
      exact ih (i + 1)
    | some url =>
      cases hr : (waitForHttpOk url (w.probes url)).1 with
      | ok b =>
        rw [waitPhase_cons_ok w i s rest url b hs hr, List.count_cons]
        have := ih (i + 1)
        simp
        omega
      | error msg =>
        rw [waitPhase_cons_error w i s rest url msg hs hr]
        simp [List.count_cons]

/-- The start loop never emits the shell-start event. -/
theorem startShell_not_mem_startEvts (n : Nat) :
    Event.startShell ∉ (List.range n).map Event.startSvc := by
  intro h
  rcases List.mem_map.mp h with ⟨a, -, ha⟩
  exact Event.noConfusion ha

/-- The start loop emits each service-start event exactly once for the
indices of the configured list and never otherwise. -/
theorem startEvts_count (n i : Nat) :
    ((List.range n).map Event.startSvc).count (Event.startSvc i) =
      if i < n then 1 else 0 := by
  have hinj : Function.Injective Event.startSvc := by
    intro a b hab
    injection hab
  rw [List.count_map_of_injective _ _ hinj]
  by_cases h : i < n
  · rw [if_pos h]
    exact List.count_eq_one_of_mem (List.nodup_range n) (List.mem_range.mpr h)
  · rw [if_neg h]
    exact List.count_eq_zero_of_not_mem (fun hm => h (List.mem_range.mp hm))

/-- When the shell-start event occurs, the readiness loop ends with it
and has recorded a readiness success for every service of the sublist
that declares a URL. -/
theorem waitPhase_shell_last (w : World) :
    ∀ (svcs : List Svc) (i : Nat),
      Event.startShell ∈ waitPhase w i svcs →
      ∃ pre, waitPhase w i svcs = pre ++ [Event.startShell] ∧
        ∀ j s url, svcs[j]? = some s → s.readyUrl = some url →
          Event.waitOk (i + j) ∈ pre := by
  intro svcs
  induction svcs with
  | nil =>
    intro i _
    refine ⟨[], rfl, ?_⟩
    intro j s url hj _
    simp at hj
  | cons s rest ih =>
    intro i hmem
    cases hs : s.readyUrl with
    | none =>
      rw [waitPhase_cons_none w i s rest hs] at hmem ⊢
      obtain ⟨pre, heq, hpre⟩ := ih (i + 1) hmem
      refine ⟨pre, heq, ?_⟩
      intro j s' url hj hu
      cases j with
      | zero =>
        rw [List.getElem?_cons_zero] at hj
        injection hj with hj
        rw [← hj, hs] at hu
        exact Option.noConfusion hu
      | succ j' =>
        have hmm := hpre j' s' url (by simpa using hj) hu
        have harith : i + 1 + j' = i + (j' + 1) := by omega
        rw [harith] at hmm
        exact hmm
    | some url =>
      cases hr : (waitForHttpOk url (w.probes url)).1 with
      | error msg =>
        rw [waitPhase_cons_error w i s rest url msg hs hr] at hmem
        simp at hmem
      | ok b =>
        rw [waitPhase_cons_ok w i s rest url b hs hr] at hmem ⊢
        have hmem' : Event.startShell ∈ waitPhase w (i + 1) rest := by
          rcases List.mem_cons.mp hmem with h1 | h1
          · exact absurd h1 (by simp)
          · exact h1
        obtain ⟨pre, heq, hpre⟩ := ih (i + 1) hmem'
        refine ⟨Event.waitOk i :: pre, by rw [heq]; rfl, ?_⟩
        intro j s' url' hj hu
        cases j with
        | zero =>
          simp
        | succ j' =>
          have hmm := hpre j' s' url' (by simpa using hj) hu
          have harith : i + 1 + j' = i + (j' + 1) := by omega
          rw [harith] at hmm
          exact List.mem_cons_of_mem _ hmm

/-- Any recorded readiness success belongs to a service of the sublist
that declares a readiness URL. -/
theorem waitOk_mem_waitPhase (w : World) :
    ∀ (svcs : List Svc) (i k : Nat),
      Event.waitOk k ∈ waitPhase w i svcs →
      ∃ j s, svcs[j]? = some s ∧ k = i + j ∧ s.readyUrl ≠ none := by
  intro svcs
  induction svcs with
  | nil =>
    intro i k h
    simp [waitPhase_nil] at h
  | cons s rest ih =>
    intro i k h
    cases hs : s.readyUrl with
    | none =>
      rw [waitPhase_cons_none w i s rest hs] at h
      obtain ⟨j, s', hj, hk, hu⟩ := ih (i + 1) k h
      exact ⟨j + 1, s', by simpa using hj, by omega, hu⟩
    | some url =>
      cases hr : (waitForHttpOk url (w.probes url)).1 with
      | error msg =>
        rw [waitPhase_cons_error w i s rest url msg hs hr] at h
        simp at h
      | ok b =>
        rw [waitPhase_cons_ok w i s rest url b hs hr] at h
        rcases List.mem_cons.mp h with h1 | h1
        · injection h1 with hk
          exact ⟨0, s, by simp, by omega, by simp [hs]⟩
        · obtain ⟨j, s', hj, hk, hu⟩ := ih (i + 1) k h1
          exact ⟨j + 1, s', by simpa using hj, by omega, hu⟩

/-- When some service with a declared readiness URL fails its wait,
the readiness loop never reaches the shell start and ends with the
failure report (naming a failing service), the shutdown and exit 1. -/
theorem waitPhase_failure_tail (w : World) :
    ∀ (svcs : List Svc) (i : Nat),
      (∃ (j : Nat) (s : Svc) (url : String), svcs[j]? = some s ∧ s.readyUrl = some url ∧
        exceptIsError (waitForHttpOk url (w.probes url)).1 = true) →
      Event.startShell ∉ waitPhase w i svcs ∧
      ∃ (pre : List Event) (j : Nat) (s : Svc) (url msg : String),
        svcs[j]? = some s ∧ s.readyUrl = some url ∧
        waitPhase w i svcs =
          pre ++ [Event.reportWaitFailure s.name msg, Event.shutdownEv, Event.exitEv 1] := by
  intro svcs
  induction svcs with
  | nil =>
    rintro i ⟨j, s, url, hj, -, -⟩
    simp at hj
  | cons s rest ih =>
    rintro i ⟨j, s', url', hj, hu, he⟩
    cases hs : s.readyUrl with
    | none =>
      have hrest : ∃ (j : Nat) (s2 : Svc) (url : String), rest[j]? = some s2 ∧
          s2.readyUrl = some url ∧
          exceptIsError (waitForHttpOk url (w.probes url)).1 = true := by
        cases j with
        | zero =>
          rw [List.getElem?_cons_zero] at hj
          injection hj with hj
          rw [← hj, hs] at hu
          exact Option.noConfusion hu
        | succ j' => exact ⟨j', s', url', by simpa using hj, hu, he⟩
      obtain ⟨h1, pre, j2, s2, url2, msg, hj2, hu2, heq⟩ := ih (i + 1) hrest
      rw [waitPhase_cons_none w i s rest hs]
      exact ⟨h1, pre, j2 + 1, s2, url2, msg, by simpa using hj2, hu2, heq⟩
    | some url =>
      cases hr : (waitForHttpOk url (w.probes url)).1 with
      | error msg =>
        rw [waitPhase_cons_error w i s rest url msg hs hr]
        exact ⟨by simp, [], 0, s, url, msg, by simp, hs, by simp⟩
      | ok b =>
        have hrest : ∃ (j : Nat) (s2 : Svc) (url : String), rest[j]? = some s2 ∧
            s2.readyUrl = some url ∧
            exceptIsError (waitForHttpOk url (w.probes url)).1 = true := by
          cases j with
          | zero =>
            rw [List.getElem?_cons_zero] at hj
            injection hj with hj
            rw [← hj, hs] at hu
            injection hu with hu
            rw [← hu, hr] at he
            simp [exceptIsError] at he
          | succ j' => exact ⟨j', s', url', by simpa using hj, hu, he⟩
        obtain ⟨h1, pre, j2, s2, url2, msg, hj2, hu2, heq⟩ := ih (i + 1) hrest
        rw [waitPhase_cons_ok w i s rest url b hs hr]
        refine ⟨?_, Event.waitOk i :: pre, j2 + 1, s2, url2, msg,
          by simpa using hj2, hu2, by rw [heq]; rfl⟩
        intro hm
        rcases List.mem_cons.mp hm with h2 | h2
        · exact Event.noConfusion h2
        · exact h1 h2

/-! ## Claims about the orchestration run -/

/-- C1: whenever the shell (primary) start event occurs in a run, it
is the last event, every configured service that declares a readiness
URL has a recorded `waitForHttpOk` success strictly before it, and a
service that declares no readiness URL is skipped: no wait event is
ever recorded for it. -/
theorem shell_start_gated_on_readiness (w : World) (shellPort : Option Nat)
    (svcs : List Svc) (h : Event.startShell ∈ run w shellPort svcs) :
    ∃ pre, run w shellPort svcs = pre ++ [Event.startShell] ∧
      (∀ (j : Nat) (s : Svc) (url : String), svcs[j]? = some s →
        s.readyUrl = some url → Event.waitOk j ∈ pre) ∧
      (∀ (j : Nat) (s : Svc), svcs[j]? = some s → s.readyUrl = none →
        Event.waitOk j ∉ run w shellPort svcs) := by
  by_cases hp : (requiredPorts shellPort svcs).filter w.portBusy = []
  case neg =>
    rw [run_preflight_fail w shellPort svcs hp] at h
    simp at h
  case pos =>
    rw [run_preflight_pass w shellPort svcs hp] at h ⊢
    have h' : Event.startShell ∈ waitPhase w 0 svcs := by
      rcases List.mem_append.mp h with h1 | h1
      · exact absurd h1 (startShell_not_mem_startEvts _)
      · exact h1
    obtain ⟨pre, heq, hpre⟩ := waitPhase_shell_last w svcs 0 h'
    refine ⟨(List.range svcs.length).map Event.startSvc ++ pre, ?_, ?_, ?_⟩
    · rw [heq, List.append_assoc]
    · intro j s url hj hu
      have hmm := hpre j s url hj hu
      rw [Nat.zero_add] at hmm
      exact List.mem_append_right _ hmm
    · intro j s hj hu hmem
      have hmem' : Event.waitOk j ∈ waitPhase w 0 svcs := by
        rcases List.mem_append.mp hmem with h1 | h1
        · exfalso
          rcases List.mem_map.mp h1 with ⟨a, -, ha⟩
          exact Event.noConfusion ha
        · exact h1
      obtain ⟨j', s', hj', hk, hu'⟩ := waitOk_mem_waitPhase w svcs 0 j hmem'
      have hjj : j' = j := by omega
      rw [hjj, hj] at hj'
      injection hj' with hss
      rw [← hss, hu] at hu'
      exact hu' rfl

/-- Witness for C1: one service with a readiness URL that answers 200
and one without, all ports free: the shell start is last, after the
recorded readiness success. -/
theorem shell_start_gated_on_readiness_witness :
    ∃ pre,
      run { portBusy := fun _ => false,
            probes := fun _ => [(ProbeOutcome.response 200, 1)] } (some 5173)
          [{ name := "auth", port := some 5174, readyUrl := some "http://u" },
           { name := "mock", port := none, readyUrl := none }] =
        pre ++ [Event.startShell] ∧
      (∀ (j : Nat) (s : Svc) (url : String),
        ([{ name := "auth", port := some 5174, readyUrl := some "http://u" },
          { name := "mock", port := none, readyUrl := none }] : List Svc)[j]? = some s →
        s.readyUrl = some url → Event.waitOk j ∈ pre) ∧
      (∀ (j : Nat) (s : Svc),
        ([{ name := "auth", port := some 5174, readyUrl := some "http://u" },
          { name := "mock", port := none, readyUrl := none }] : List Svc)[j]? = some s →
        s.readyUrl = none →
        Event.waitOk j ∉
          run { portBusy := fun _ => false,
                probes := fun _ => [(ProbeOutcome.response 200, 1)] } (some 5173)
            [{ name := "auth", port := some 5174, readyUrl := some "http://u" },
             { name := "mock", port := none, readyUrl := none }]) :=
  shell_start_gated_on_readiness
    { portBusy := fun _ => false, probes := fun _ => [(ProbeOutcome.response 200, 1)] }
    (some 5173)
    [{ name := "auth", port := some 5174, readyUrl := some "http://u" },
     { name := "mock", port := none, readyUrl := none }]
    (by decide)

/-- C4: under the physical constraint that port 0 accepts no TCP
connection, a configuration with at least one declared port busy makes
the run report the occupied ports and exit 1 with no service and no
shell ever started; conversely, when every declared port is free, the
occupied set is empty and the run proceeds to the start loop and the
readiness phase. -/
theorem preflight_port_gate (w : World) (shellPort : Option Nat) (svcs : List Svc)
    (hzero : w.portBusy 0 = false) :
    ((∃ p ∈ declaredPorts shellPort svcs, w.portBusy p = true) →
      ∃ occ, occ ≠ [] ∧
        run w shellPort svcs = [Event.portsReport occ, Event.exitEv 1] ∧
        (∀ i, Event.startSvc i ∉ run w shellPort svcs) ∧
        Event.startShell ∉ run w shellPort svcs) ∧
    ((∀ p ∈ declaredPorts shellPort svcs, w.portBusy p = false) →
      (requiredPorts shellPort svcs).filter w.portBusy = [] ∧
      run w shellPort svcs =
        ((List.range svcs.length).map Event.startSvc) ++ waitPhase w 0 svcs) := by
  constructor
  · rintro ⟨p, hp, hbusy⟩
    have hp0 : p ≠ 0 := by
      intro h0
      rw [h0, hzero] at hbusy
      exact Bool.noConfusion hbusy
    have hmem : p ∈ (requiredPorts shellPort svcs).filter w.portBusy := by
      rw [List.mem_filter, requiredPorts, List.mem_filter]
      exact ⟨⟨hp, by simpa using hp0⟩, hbusy⟩
    have hne : (requiredPorts shellPort svcs).filter w.portBusy ≠ [] := by
      intro h0
      rw [h0] at hmem
      exact List.not_mem_nil p hmem
    refine ⟨(requiredPorts shellPort svcs).filter w.portBusy, hne,
      run_preflight_fail w shellPort svcs hne, ?_, ?_⟩
    · intro i hmem2
      rw [run_preflight_fail w shellPort svcs hne] at hmem2
      simp at hmem2
    · intro hmem2
      rw [run_preflight_fail w shellPort svcs hne] at hmem2
      simp at hmem2
  · intro hall
    have hfe : (requiredPorts shellPort svcs).filter w.portBusy = [] := by
      rw [List.filter_eq_nil_iff]
      intro p hp
      have hpd : p ∈ declaredPorts shellPort svcs := by
        rw [requiredPorts] at hp
        exact (List.mem_filter.mp hp).1
      simp [hall p hpd]
    exact ⟨hfe, run_preflight_pass w shellPort svcs hfe⟩

/-- Witness for C4: the shell's declared port 5173 is busy; the run
reports it and exits 1 without starting anything. -/
theorem preflight_port_gate_witness :
    ∃ occ, occ ≠ [] ∧
      run { portBusy := fun p => p == 5173, probes := fun _ => [] } (some 5173)
          [{ name := "auth", port := some 5174, readyUrl := some "http://u" }] =
        [Event.portsReport occ, Event.exitEv 1] ∧
      (∀ i, Event.startSvc i ∉
        run { portBusy := fun p => p == 5173, probes := fun _ => [] } (some 5173)
          [{ name := "auth", port := some 5174, readyUrl := some "http://u" }]) ∧
      Event.startShell ∉
        run { portBusy := fun p => p == 5173, probes := fun _ => [] } (some 5173)
          [{ name := "auth", port := some 5174, readyUrl := some "http://u" }] :=
  (preflight_port_gate { portBusy := fun p => p == 5173, probes := fun _ => [] }
      (some 5173) [{ name := "auth", port := some 5174, readyUrl := some "http://u" }]
      (by decide)).1
    ⟨5173, by decide, by decide⟩

/-- C7: when preflight passes and some configured service's readiness
wait throws, the run reports the failure with that service's name,
shuts the fleet down, exits 1, and never reaches the shell start. -/
theorem readiness_failure_prevents_shell (w : World) (shellPort : Option Nat)
    (svcs : List Svc)
    (hpre : (requiredPorts shellPort svcs).filter w.portBusy = [])
    (hfail : ∃ (j : Nat) (s : Svc) (url : String), svcs[j]? = some s ∧
      s.readyUrl = some url ∧
      exceptIsError (waitForHttpOk url (w.probes url)).1 = true) :
    Event.startShell ∉ run w shellPort svcs ∧
    ∃ (pre : List Event) (j : Nat) (s : Svc) (url msg : String),
      svcs[j]? = some s ∧ s.readyUrl = some url ∧
      run w shellPort svcs =
        pre ++ [Event.reportWaitFailure s.name msg, Event.shutdownEv, Event.exitEv 1] := by
  obtain ⟨h1, pre, j, s, url, msg, hj, hu, heq⟩ := waitPhase_failure_tail w svcs 0 hfail
  rw [run_preflight_pass w shellPort svcs hpre]
  constructor
  · intro hm
    rcases List.mem_append.mp hm with h2 | h2
    · exact startShell_not_mem_startEvts _ h2
    · exact h1 h2
  · exact ⟨(List.range svcs.length).map Event.startSvc ++ pre, j, s, url, msg, hj, hu,
      by rw [heq, List.append_assoc]⟩

/-- Witness for C7: one service whose probe takes 60001 ms and fails,
so its wait throws; the run never starts the shell and ends with the
failure report, shutdown and exit 1. -/
theorem readiness_failure_prevents_shell_witness :
    Event.startShell ∉
      run { portBusy := fun _ => false,
            probes := fun _ => [(ProbeOutcome.connError, 60001)] } (some 5173)
        [{ name := "auth", port := some 5174, readyUrl := some "http://u" }] ∧
    ∃ (pre : List Event) (j : Nat) (s : Svc) (url msg : String),
      ([{ name := "auth", port := some 5174, readyUrl := some "http://u" }] :
        List Svc)[j]? = some s ∧ s.readyUrl = some url ∧
      run { portBusy := fun _ => false,
            probes := fun _ => [(ProbeOutcome.connError, 60001)] } (some 5173)
          [{ name := "auth", port := some 5174, readyUrl := some "http://u" }] =
        pre ++ [Event.reportWaitFailure s.name msg, Event.shutdownEv, Event.exitEv 1] :=
  readiness_failure_prevents_shell
    { portBusy := fun _ => false, probes := fun _ => [(ProbeOutcome.connError, 60001)] }
    (some 5173)
    [{ name := "auth", port := some 5174, readyUrl := some "http://u" }]
    (by decide)
    ⟨0, { name := "auth", port := some 5174, readyUrl := some "http://u" },
      "http://u", by decide, rfl, by decide⟩

/-- C9: in every run each configured service's start event occurs at
most once and the shell's at most once; when preflight passes, each
configured service is started exactly once; and each `startService`
invocation appends exactly one child handle to the tracked list. -/
theorem descriptor_spawned_at_most_once (w : World) (shellPort : Option Nat)
    (svcs : List Svc) :
    (∀ i, (run w shellPort svcs).count (Event.startSvc i) ≤ 1) ∧
    (run w shellPort svcs).count Event.startShell ≤ 1 ∧
    ((requiredPorts shellPort svcs).filter w.portBusy = [] →
      ∀ i, i < svcs.length → (run w shellPort svcs).count (Event.startSvc i) = 1) ∧
    (∀ (children : List Nat) (pid : Nat),
      (childrenPush children pid).length = children.length + 1) := by
  by_cases hp : (requiredPorts shellPort svcs).filter w.portBusy = []
  case pos =>
    rw [run_preflight_pass w shellPort svcs hp]
    refine ⟨?_, ?_, ?_, ?_⟩
    · intro i
      rw [List.count_append, startEvts_count,
        List.count_eq_zero_of_not_mem (waitPhase_no_startSvc w svcs 0 i)]
      by_cases h : i < svcs.length
      · rw [if_pos h]
      · rw [if_neg h]
        omega
    · rw [List.count_append,
        List.count_eq_zero_of_not_mem (startShell_not_mem_startEvts svcs.length)]
      have := waitPhase_startShell_once w svcs 0
      omega
    · intro _ i hi
      rw [List.count_append, startEvts_count, if_pos hi,
        List.count_eq_zero_of_not_mem (waitPhase_no_startSvc w svcs 0 i)]
    · intro children pid
      simp [childrenPush]
  case neg =>
    rw [run_preflight_fail w shellPort svcs hp]
    refine ⟨?_, ?_, ?_, ?_⟩
    · intro i
      simp [List.count_cons]
    · simp [List.count_cons]
    · intro h
      exact absurd h hp
    · intro children pid
      simp [childrenPush]

/-- Witness for C9: with all ports free and a ready service, the single
configured service's start event occurs exactly once. -/
theorem descriptor_spawned_at_most_once_witness :
    (run { portBusy := fun _ => false,
           probes := fun _ => [(ProbeOutcome.response 204, 2)] } (some 9000)
        [{ name := "auth", port := some 9001, readyUrl := some "http://r" }]).count
      (Event.startSvc 0) = 1 :=
  (descriptor_spawned_at_most_once
      { portBusy := fun _ => false, probes := fun _ => [(ProbeOutcome.response 204, 2)] }
      (some 9000)
      [{ name := "auth", port := some 9001, readyUrl := some "http://r" }]).2.2.1
    (by decide) 0 (by decide)

end DevAll
